import Mathlib

/-!
Verification development for the stream-filter decode engine and font schemas
of a PDF object-model library.  The Rust sources (`enc.rs`, `font.rs`,
`error.rs`, and the text-extraction example `main.rs`) are shallowly embedded:
bytes are `Nat` values (always < 256 in actual use), 8-bit wrapping arithmetic
is explicit `% 256`, fallible code returns `Except`, and code paths that abort
the process (out-of-bounds slicing, failed `unwrap`, arithmetic-overflow
aborts) are modelled by the `Panicable.panicked` outcome.
-/

/-- Wrapping 8-bit addition, the semantics of `u8::wrapping_add`. -/
def wadd (a b : Nat) : Nat := (a + b) % 256

/-- Wrapping 8-bit subtraction, the semantics of `u8::wrapping_sub`
(arguments are byte values, i.e. already < 256 in actual use). -/
def wsub (a b : Nat) : Nat := (a + 256 - b % 256) % 256

/-- Outcome of running a piece of Rust code that may abort the process
(index out of bounds, failed `unwrap`, violated `assert!`): either a value
or an abort.  `panicked` is distinct from returning an error value. -/
inductive Panicable (α : Type) where
  | ok (val : α)
  | panicked
  deriving DecidableEq, Repr

/-- The error enum of `error.rs` (`PdfError`), restricted to the variants the
embedded code can produce.  Payloads: positions and offending bytes are `Nat`,
messages and field names are `String`, exactly as carried by the source enum. -/
inductive PdfError where
  | HexDecode (pos : Nat) (b0 b1 : Nat)
  | Ascii85TailError
  | IncorrectPredictorType (n : Nat)
  | MissingEntry (typ field : String)
  | KeyValueMismatch (key value found : String)
  | WrongDictionaryType (expected found : String)
  | UnexpectedPrimitive (expected found : String)
  | UnknownVariant (id name : String)
  | NoneError
  | Other (msg : String)
  deriving DecidableEq, Repr

/-! ## `enc.rs`: hex decoding -/

/-- `decode_nibble` from `enc.rs`: note the source accepts the ranges
`b'a'..=b'h'` and `b'A'..=b'H'` (not `..=b'f'`/`..=b'F'`). -/
def decode_nibble (c : Nat) : Option Nat :=
  if 48 ≤ c ∧ c ≤ 57 then some (c - 48)
  else if 97 ≤ c ∧ c ≤ 104 then some (c - 97 + 0xa)
  else if 65 ≤ c ∧ c ≤ 72 then some (c - 65 + 0xA)
  else none

/-- The pair loop of `decode_hex`: `data.iter().tuples().enumerate()` yields
the consecutive disjoint pairs and silently ignores a leftover odd byte; `i`
counts pairs.  `high << 4 | low` on `u8` discards shifted-out bits. -/
def decodeHexLoop (i : Nat) : List Nat → Except PdfError (List Nat)
  | high :: low :: rest =>
    match decode_nibble low, decode_nibble high with
    | some l, some h =>
      match decodeHexLoop (i + 1) rest with
      | .ok out => .ok ((h * 16 % 256).lor l :: out)
      | .error e => .error e
    | _, _ => .error (.HexDecode (i * 2) high low)
  | _ => .ok []

/-- `decode_hex` from `enc.rs`. -/
def decode_hex (data : List Nat) : Except PdfError (List Nat) :=
  decodeHexLoop 0 data

/-! ## `enc.rs`: base-85 decoding -/

/-- `sym_85` from `enc.rs`: maps `0x21..=0x75` to `0..=84`. -/
def sym_85 (byte : Nat) : Option Nat :=
  if 0x21 ≤ byte ∧ byte ≤ 0x75 then some (byte - 0x21) else none

/-- `word_85` from `enc.rs`.  The slice expression `input[1..5]` aborts when
the input is shorter than 5 bytes (and the head is not `b'z'`), hence the
`panicked` outcome there.  The accumulator is exactly the source expression
`((((sym_85(a)?*85) + sym_85(b)?*85) + sym_85(c)?*85) + sym_85(d)?*85) + e`
— the last symbol `e` is used as a raw byte, and the multiplications are not
nested Horner steps. -/
def word_85 (input : List Nat) : Panicable (Option (Nat × List Nat)) :=
  match input with
  | [] => .ok none
  | a :: rest =>
    if a = 122 then .ok (some (1, [0, 0, 0, 0]))
    else match rest with
      | b :: c :: d :: e :: _ =>
        match sym_85 a, sym_85 b, sym_85 c, sym_85 d with
        | some sa, some sb, some sc, some sd =>
          let q : Nat := (((sa * 85 + sb * 85) + sc * 85) + sd * 85 + e) % 2 ^ 32
          .ok (some (5, [q / 2 ^ 24 % 256, q / 2 ^ 16 % 256, q / 2 ^ 8 % 256, q % 256]))
        | _, _, _, _ => .ok none
      | _ => .panicked

/-- `substr(data, b"~>")` from `enc.rs`: index of the first 2-byte window
equal to `~>` (`data.windows(2).position`); `none` when the data is shorter
than the needle or holds no such window. -/
def substr : List Nat → Option Nat
  | 126 :: 62 :: _ => some 0
  | _ :: rest => (substr rest).map (· + 1)
  | [] => none

/-- The `while let Some((advance, word)) = word_85(&data[pos..])` loop of
`decode_85`, with explicit fuel.  Each successful call to `word_85` advances
by at least one byte, so `data.length + 1` fuel always suffices; the fuel-zero
branch is unreachable from `decode_85`.  Returns the accumulated output words
and the unconsumed remainder of the data. -/
def decode85Loop : Nat → List Nat → Panicable (List Nat × List Nat)
  | 0, _ => .panicked
  | fuel + 1, data =>
    match word_85 data with
    | .panicked => .panicked
    | .ok none => .ok ([], data)
    | .ok (some (adv, w)) =>
      match decode85Loop fuel (data.drop adv) with
      | .panicked => .panicked
      | .ok (out, rem) => .ok (w ++ out, rem)

/-- `decode_85` from `enc.rs`.  After the word loop, the tail before `~>` is
copied over a buffer of five `b'u'` bytes and decoded with `word_85`; the
final `&last[..tail_len - 1]` slice aborts when `tail_len = 0` (the `usize`
subtraction wraps and the slice bound is out of range).  The `assert!` that
`tail_len < 5` aborts when violated. -/
def decode_85 (data : List Nat) : Panicable (Except PdfError (List Nat)) :=
  match decode85Loop (data.length + 1) data with
  | .panicked => .panicked
  | .ok (out, rem) =>
    match substr rem with
    | none => .ok (.error .Ascii85TailError)
    | some tail_len =>
      if tail_len < 5 then
        if rem.length < tail_len then .ok (.error .Ascii85TailError)
        else
          let tail := rem.take tail_len ++ List.replicate (5 - tail_len) 117
          match word_85 tail with
          | .panicked => .panicked
          | .ok none => .ok (.error .Ascii85TailError)
          | .ok (some (_, last)) =>
            if tail_len = 0 then .panicked
            else .ok (.ok (out ++ last.take (tail_len - 1)))
      else .panicked

/-! ## `enc.rs`: PNG predictors -/

/-- `PredictorType` from `enc.rs`. -/
inductive PredictorType where
  | NoFilter
  | Sub
  | Up
  | Avg
  | Paeth
  deriving DecidableEq, Repr

/-- `PredictorType::from_u8` from `enc.rs`. -/
def PredictorType.from_u8 (n : Nat) : Except PdfError PredictorType :=
  match n with
  | 0 => .ok .NoFilter
  | 1 => .ok .Sub
  | 2 => .ok .Up
  | 3 => .ok .Avg
  | 4 => .ok .Paeth
  | n => .error (.IncorrectPredictorType n)

/-- `filter_paeth` from `enc.rs`: the `i16` computation of the Paeth
predictor, tie-broken left then above. -/
def filter_paeth (a b c : Nat) : Nat :=
  let p : Int := (a : Int) + b - c
  let pa := (p - a).natAbs
  let pb := (p - b).natAbs
  let pc := (p - c).natAbs
  if pa ≤ pb ∧ pa ≤ pc then a else if pb ≤ pc then b else c

/-- `unfilter` from `enc.rs`.  The two `assert_eq!` length checks abort on
mismatch.  Each arm is the source's index loop over the output buffer `out`
(which the caller hands over zero-initialised); note that the `Sub` arm only
writes indices `bpp..len`, leaving `out[..bpp]` at its initial contents, and
that the `Avg`/`Paeth` arms index `out[i]`/`inp[i]` for `i < bpp` and hence
abort when `bpp` exceeds the row length. -/
def unfilter (ft : PredictorType) (bpp : Nat) (prev inp out : List Nat) :
    Panicable (List Nat) :=
  let len := inp.length
  if out.length ≠ len then .panicked
  else if prev.length ≠ len then .panicked
  else match ft with
  | .NoFilter =>
    .ok ((List.range len).foldl (fun o i => o.set i (inp.getD i 0)) out)
  | .Sub =>
    .ok ((List.range' bpp (len - bpp)).foldl
      (fun o i => o.set i (wadd (inp.getD i 0) (o.getD (i - bpp) 0))) out)
  | .Up =>
    .ok ((List.range len).foldl
      (fun o i => o.set i (wadd (inp.getD i 0) (prev.getD i 0))) out)
  | .Avg =>
    if len < bpp then .panicked
    else
      .ok ((List.range' bpp (len - bpp)).foldl
        (fun o i =>
          o.set i (wadd (inp.getD i 0) ((o.getD (i - bpp) 0 + prev.getD i 0) / 2)))
        ((List.range bpp).foldl
          (fun o i => o.set i (wadd (inp.getD i 0) (prev.getD i 0 / 2))) out))
  | .Paeth =>
    if len < bpp then .panicked
    else
      .ok ((List.range' bpp (len - bpp)).foldl
        (fun o i =>
          o.set i (wadd (inp.getD i 0)
            (filter_paeth (o.getD (i - bpp) 0) (prev.getD i 0) (prev.getD (i - bpp) 0))))
        ((List.range bpp).foldl
          (fun o i => o.set i (wadd (inp.getD i 0) (filter_paeth 0 (prev.getD i 0) 0))) out))

/-- `filter` from `enc.rs`: the forward PNG filter, mutating `current` in
place; the `Sub`/`Avg`/`Paeth` main loops run over `(bpp..len).rev()`.  The
arms that read `previous[i]` abort when `previous` is shorter than the range
of indices they touch, and the trailing `0..bpp` loops of `Avg`/`Paeth` abort
when `bpp` exceeds a buffer length, mirroring Rust index aborts. -/
def filter (method : PredictorType) (bpp : Nat) (previous current : List Nat) :
    Panicable (List Nat) :=
  let len := current.length
  match method with
  | .NoFilter => .ok current
  | .Sub =>
    .ok ((List.range' bpp (len - bpp)).reverse.foldl
      (fun c i => c.set i (wsub (c.getD i 0) (c.getD (i - bpp) 0))) current)
  | .Up =>
    if 0 < len ∧ previous.length < len then .panicked
    else
      .ok ((List.range len).foldl
        (fun c i => c.set i (wsub (c.getD i 0) (previous.getD i 0))) current)
  | .Avg =>
    if bpp < len ∧ previous.length < len then .panicked
    else if 0 < bpp ∧ (len < bpp ∨ previous.length < bpp) then .panicked
    else
      .ok ((List.range bpp).foldl
        (fun c i => c.set i (wsub (c.getD i 0) (previous.getD i 0 / 2)))
        ((List.range' bpp (len - bpp)).reverse.foldl
          (fun c i =>
            c.set i (wsub (c.getD i 0) (wadd (c.getD (i - bpp) 0) (previous.getD i 0) / 2)))
          current))
  | .Paeth =>
    if bpp < len ∧ previous.length < len then .panicked
    else if 0 < bpp ∧ (len < bpp ∨ previous.length < bpp) then .panicked
    else
      .ok ((List.range bpp).foldl
        (fun c i => c.set i (wsub (c.getD i 0) (filter_paeth 0 (previous.getD i 0) 0)))
        ((List.range' bpp (len - bpp)).reverse.foldl
          (fun c i =>
            c.set i (wsub (c.getD i 0)
              (filter_paeth (c.getD (i - bpp) 0) (previous.getD i 0) (previous.getD (i - bpp) 0))))
          current))

/-! ## `enc.rs`: flate decoding and filter dispatch -/

/-- `LZWFlateParams` from `enc.rs` (fields are `i32` in the source). -/
structure LZWFlateParams where
  predictor : Int
  n_components : Int
  bits_per_component : Int
  columns : Int
  early_change : Int
  deriving DecidableEq, Repr

/-- Semantics of the Rust cast `v as usize` for an `i32` value `v`:
sign-extension reinterpreted as an unsigned 64-bit value. -/
def usizeOfI32 (v : Int) : Nat := (v % 2 ^ 64).toNat

/-- The row loop of `flate_decode`'s predictor stage, with explicit fuel.
Each iteration advances the input offset by `columns + 1 ≥ 1`, so
`inp.length + 1` fuel always suffices; the fuel-zero branch is unreachable
from `pred_stage`.  The loop condition is `in_off < inp.len()`, so a final
partial row is still entered; the slices `&inp[in_off..in_off+columns]` and
`&mut curr[..columns]` abort when they run past their buffer. -/
def predLoop (n_components columns : Nat) (inp : List Nat) :
    Nat → List Nat → Nat → Nat → Nat → Panicable (Except PdfError (List Nat))
  | 0, _, _, _, _ => .panicked
  | fuel + 1, out, in_off, out_off, last_out_off =>
    if in_off < inp.length then
      match PredictorType.from_u8 (inp.getD in_off 0) with
      | .error e => .ok (.error e)
      | .ok pred =>
        let in_off1 := in_off + 1
        if inp.length < in_off1 + columns then .panicked
        else
          let row_in := (inp.drop in_off1).take columns
          let prev_row := if out_off = 0 then List.replicate columns 0
                          else (out.take out_off).drop last_out_off
          if out.length < out_off + columns then .panicked
          else
            let row_out := (out.drop out_off).take columns
            match unfilter pred n_components prev_row row_in row_out with
            | .panicked => .panicked
            | .ok newRow =>
              let out1 := out.take out_off ++ newRow ++ out.drop (out_off + columns)
              predLoop n_components columns inp fuel out1 (in_off1 + columns)
                (out_off + columns) out_off
    else .ok (.ok out)

/-- The predictor stage of `flate_decode` (the `predictor > 10` branch),
applied to the already-inflated buffer: `rows = inp.len() / (columns + 1)`,
a zero output buffer of `rows * columns` bytes, and the sequential row loop. -/
def pred_stage (n_components columns : Nat) (inp : List Nat) :
    Panicable (Except PdfError (List Nat)) :=
  let rows := inp.length / (columns + 1)
  predLoop n_components columns inp (inp.length + 1)
    (List.replicate (rows * columns) 0) 0 0 0

/-- `flate_decode` from `enc.rs`.  The two inflate attempts live in the
external `inflate` crate and are passed in as functions (`inflate_bytes_zlib`
then, on failure, `inflate_bytes`); a raw-inflate failure string becomes
`PdfError::Other` through the `From<String>` conversion in `error.rs`. -/
def flate_decode (inflZ inflRaw : List Nat → Except String (List Nat))
    (data : List Nat) (params : LZWFlateParams) :
    Panicable (Except PdfError (List Nat)) :=
  let predictor := usizeOfI32 params.predictor
  let n_components := usizeOfI32 params.n_components
  let columns := usizeOfI32 params.columns
  match (match inflZ data with
         | .ok d => Except.ok d
         | .error _ =>
           match inflRaw data with
           | .ok d => Except.ok d
           | .error e => Except.error (PdfError.Other e)) with
  | .error e => .ok (.error e)
  | .ok decoded =>
    if 10 < predictor then pred_stage n_components columns decoded
    else .ok (.ok decoded)

/-- `StreamFilter` from `enc.rs` (`DCTDecode`'s optional colour-transform
parameter). -/
inductive StreamFilter where
  | ASCIIHexDecode
  | ASCII85Decode
  | LZWDecode (params : LZWFlateParams)
  | FlateDecode (params : LZWFlateParams)
  | JPXDecode
  | DCTDecode (color_transform : Option Int)
  | CCITTFaxDecode
  | Crypt
  deriving DecidableEq, Repr

/-- The message produced by the `unimplemented!` macro of `error.rs` at the
catch-all arm of `decode` in `enc.rs`: that local macro expands to
`bail!("Unimplemented @ {}:{}", file!(), line!())`, i.e. to an early return
of `PdfError::Other` — not to the aborting macro from the standard library. -/
def unimplementedMsg : String := "Unimplemented @ src/enc.rs:212"

/-- `decode` from `enc.rs`.  The external decoders (the `inflate` crate and
the `jpeg_decoder` crate used by `dct_decode`) are passed in as functions. -/
def decode (inflZ inflRaw : List Nat → Except String (List Nat))
    (dctF : List Nat → Except PdfError (List Nat))
    (data : List Nat) (f : StreamFilter) : Panicable (Except PdfError (List Nat)) :=
  match f with
  | .ASCIIHexDecode => .ok (decode_hex data)
  | .ASCII85Decode => decode_85 data
  | .FlateDecode params => flate_decode inflZ inflRaw data params
  | .DCTDecode _ => .ok (dctF data)
  | _ => .ok (.error (.Other unimplementedMsg))

/-! ## `font.rs`: the sparse width table

The stored width values are `f32` in the source but are only ever stored,
cloned and returned — never computed with — so the table is embedded
polymorphically in the value type `α`. -/

/-- `Widths` from `font.rs`. -/
structure Widths (α : Type) where
  values : List α
  default : α
  first_char : Nat

/-- `Widths::get` from `font.rs`. -/
def Widths.get {α : Type} (w : Widths α) (cid : Nat) : α :=
  if cid < w.first_char then w.default
  else
    match w.values.get? (cid - w.first_char) with
    | some v => v
    | none => w.default

/-- `Widths::new` from `font.rs`. -/
def Widths.new {α : Type} (default : α) : Widths α :=
  { values := [], default := default, first_char := 0 }

/-- `Widths::set` from `font.rs`.  The four branches in source order: first
insertion; append at exactly the end; insertion below `first_char` (splice
`first_char - cid` defaults in front, then overwrite slot 0); insertion
strictly past the end (the source extends with `cid - first_char - 1`
defaults before pushing, regardless of the current length); in-range
overwrite.  `ensure_capacity` only reserves capacity and has no semantic
effect. -/
def Widths.set {α : Type} (w : Widths α) (cid : Nat) (width : α) : Widths α :=
  if w.values.length = 0 then
    { w with first_char := cid, values := [width] }
  else if cid = w.first_char + w.values.length then
    { w with values := w.values ++ [width] }
  else if cid < w.first_char then
    { w with first_char := cid,
             values := (List.replicate (w.first_char - cid) w.default ++ w.values).set 0 width }
  else if w.values.length < cid - w.first_char then
    { w with values :=
        (w.values ++ List.replicate (cid - w.first_char - 1) w.default) ++ [width] }
  else
    { w with values := w.values.set (cid - w.first_char) width }

/-- One entry of a CID font `/W` array as consumed by `Font::widths` in
`font.rs`: either a start code with an array of widths, or a start/end code
pair with one width. -/
inductive WEntry (α : Type) where
  | run (start : Nat) (ws : List α)
  | range (c1 c2 : Nat) (w : α)

/-- The `for (i, w) in array.iter().enumerate()` loop of the array-entry arm
of `Font::widths`: `set(c1 + i, w)` in order. -/
def applyRun {α : Type} : Widths α → Nat → List α → Widths α
  | w, _, [] => w
  | w, c, x :: xs => applyRun (w.set c x) (c + 1) xs

/-- The `for c in c1..=c2` loop of the range-entry arm of `Font::widths`:
`set(c, width)` for each code, given as a countdown from `c2 + 1 - c1`. -/
def applyRange {α : Type} : Widths α → Nat → Nat → α → Widths α
  | w, _, 0, _ => w
  | w, c, n + 1, x => applyRange (w.set c x) (c + 1) n x

/-- The `/W`-array walk of `Font::widths` (`font.rs`), restricted to
well-shaped entries (both entry shapes already unwrapped from primitives):
builds `Widths::new(default_width)` and applies each entry in order. -/
def widthsFromEntries {α : Type} (default : α) (es : List (WEntry α)) : Widths α :=
  es.foldl
    (fun w e =>
      match e with
      | .run c1 ws => applyRun w c1 ws
      | .range c1 c2 x => applyRange w c1 (c2 + 1 - c1) x)
    (Widths.new default)

/-! ## `font.rs`: font construction

The primitive value union and its dictionary accessors live in
`primitive.rs`, which is not part of the provided sources; those accessors
are modelled from the spec (§3, §4.1): narrowing accessors fail with an
"unexpected primitive kind" condition, `require` fails with a "missing
field" condition naming type and field, `expect` validates the `/Type` tag,
`remove` extracts an optional key. -/

/-- Modelled from the spec: the `Primitive` tagged union of `primitive.rs`
(§3 of the spec); payloads are simplified (string = raw bytes, stream =
parameter dictionary plus raw bytes) but the tags are complete. -/
inductive Primitive where
  | null
  | boolean (b : Bool)
  | integer (i : Int)
  | real (r : Int)
  | string (s : List Nat)
  | name (n : String)
  | array (a : List Primitive)
  | dictionary (d : List (String × Primitive))
  | stream (dict : List (String × Primitive)) (data : List Nat)
  | reference (id generation : Nat)

/-- A parameter dictionary: name-to-primitive entries, insertion-ordered. -/
abbrev PDict := List (String × Primitive)

/-- Modelled from the spec: key lookup in a dictionary (first entry wins,
keys are unique by invariant). -/
def PDict.lookupKey (d : PDict) (key : String) : Option Primitive :=
  (d.find? (fun e => e.1 == key)).map (·.2)

/-- Modelled from the spec: `Dictionary::remove` — the value for the key, if
any, together with the dictionary without that entry. -/
def PDict.removeEntry (d : PDict) (key : String) : Option Primitive × PDict :=
  (d.lookupKey key, d.filter (fun e => ¬ e.1 == key))

/-- Modelled from the spec: `Primitive::to_name`, an "unexpected primitive
kind" condition when the tag is not `Name`. -/
def Primitive.to_name : Primitive → Except PdfError String
  | .name n => .ok n
  | _ => .error (.UnexpectedPrimitive "Name" "other")

/-- Modelled from the spec: `Primitive::to_dictionary`. -/
def Primitive.to_dictionary : Primitive → Except PdfError PDict
  | .dictionary d => .ok d
  | _ => .error (.UnexpectedPrimitive "Dictionary" "other")

/-- Modelled from the spec: `Dictionary::require(type, key)` — "missing
field" naming owning type and field when absent. -/
def PDict.requireEntry (d : PDict) (typ key : String) : Except PdfError Primitive :=
  match d.lookupKey key with
  | some p => .ok p
  | none => .error (.MissingEntry typ key)

/-- Modelled from the spec: `Dictionary::expect(type, key, value, required)`
— the declared type-tag check used by every schema. -/
def PDict.expectEntry (d : PDict) (typ key value : String) (required : Bool) :
    Except PdfError Unit :=
  match d.lookupKey key with
  | some (.name n) =>
    if n = value then .ok () else .error (.WrongDictionaryType value n)
  | some _ => .error (.UnexpectedPrimitive "Name" "other")
  | none => if required then .error (.MissingEntry typ key) else .ok ()

/-- `FontType` from `font.rs`. -/
inductive FontType where
  | Type0
  | Type1
  | MMType1
  | Type3
  | TrueType
  | CIDFontType0
  | CIDFontType2
  deriving DecidableEq, Repr

/-- Modelled from the spec: the derive-generated `Object::from_primitive`
for the `FontType` enum — the primitive must be a name equal to a variant
name, otherwise an "unknown variant" condition. -/
def FontType.from_primitive (p : Primitive) : Except PdfError FontType :=
  match p.to_name with
  | .error e => .error e
  | .ok n =>
    if n = "Type0" then .ok .Type0
    else if n = "Type1" then .ok .Type1
    else if n = "MMType1" then .ok .MMType1
    else if n = "Type3" then .ok .Type3
    else if n = "TrueType" then .ok .TrueType
    else if n = "CIDFontType0" then .ok .CIDFontType0
    else if n = "CIDFontType2" then .ok .CIDFontType2
    else .error (.UnknownVariant "FontType" n)

/-- `STANDARD_FONTS` from `font.rs` with the `standard-fonts` feature
enabled: the bundled name table in source order.  Each entry's bytes are the
contents of a file bundled at build time (`include_bytes!`); the byte blob is
represented here by that bundled file's name, which identifies it uniquely. -/
def STANDARD_FONTS : List (String × String) :=
  [("Courier", "CourierStd.otf"),
   ("Courier-Bold", "CourierStd-Bold.otf"),
   ("Courier-Oblique", "CourierStd-Oblique.otf"),
   ("Courier-BoldOblique", "CourierStd-BoldOblique.otf"),
   ("Times-Roman", "MinionPro-Regular.otf"),
   ("Times-Bold", "MinionPro-Bold.otf"),
   ("Times-Italic", "MinionPro-It.otf"),
   ("Times-BoldItalic", "MinionPro-BoldIt.otf"),
   ("Helvetica", "MyriadPro-Regular.otf"),
   ("Helvetica-Bold", "MyriadPro-Bold.otf"),
   ("Helvetica-Oblique", "MyriadPro-It.otf"),
   ("Helvetica-BoldOblique", "MyriadPro-BoldIt.otf"),
   ("Symbol", "SY______.PFB"),
   ("ZapfDingbats", "AdobePiStd.otf"),
   ("Arial-BoldMT", "Arial-BoldMT.otf"),
   ("ArialMT", "ArialMT.ttf"),
   ("Arial-ItalicMT", "Arial-ItalicMT.otf")]

/-- `FontData` from `font.rs`, with the payloads produced by the sub-parsers
(`TFont::from_dict`, `Type0Font::from_dict`, `CIDFont::from_dict`, which live
behind derive-generated code over missing sources) held at abstract types
`α`, `β`, `γ`. -/
inductive FontData (α β γ : Type) where
  | Type1 (t : α)
  | Type0 (t : β)
  | TrueType (t : α)
  | CIDFontType0 (c : γ)
  | CIDFontType2 (c : γ) (cid_map : Option (List Nat))
  | Other (d : PDict)
  | Standard (bytes : String)

/-- `Font` from `font.rs` (the encoding and to-unicode payloads, parsed by
missing-source code, are abstract types `ε`, `σ`). -/
structure Font (α β γ ε σ : Type) where
  subtype : FontType
  name : String
  data : FontData α β γ
  encoding : Option ε
  to_unicode : Option σ
  other : PDict

/-- The optional-key parse step of `Font::from_primitive`:
`dict.remove(key).map(|p| parse(p)).transpose()?`. -/
def parseOpt {ε : Type} (parse : Primitive → Except PdfError ε) :
    Option Primitive → Except PdfError (Option ε)
  | some p =>
    match parse p with
    | .ok v => .ok (some v)
    | .error e => .error e
  | none => .ok none

/-- `Font::from_primitive` from `font.rs`.  The sub-parsers for the data
variants, the encoding, the to-unicode stream, and the `CIDToGIDMap` stream
contents (all defined in sources outside the provided set) are passed in as
functions; the big-endian pair chunking of the CID map stream is folded into
`cidMapP`.  The control flow — type-tag check, required `BaseFont` and
`Subtype`, optional `Encoding`/`ToUnicode` removal, then the standard-font
lookup `STANDARD_FONTS.iter().filter(|(name, _)| *name == base_font).next()`
before any subtype dispatch — mirrors the source. -/
def Font.from_primitive {α β γ ε σ : Type}
    (tfontP : PDict → Except PdfError α)
    (type0P : PDict → Except PdfError β)
    (cidP : PDict → Except PdfError γ)
    (encP : Primitive → Except PdfError ε)
    (streamP : Primitive → Except PdfError σ)
    (cidMapP : Primitive → Except PdfError (List Nat))
    (p : Primitive) : Except PdfError (Font α β γ ε σ) :=
  match p.to_dictionary with
  | .error e => .error e
  | .ok dict =>
  match dict.expectEntry "Font" "Type" "Font" true with
  | .error e => .error e
  | .ok _ =>
  match dict.requireEntry "Font" "BaseFont" with
  | .error e => .error e
  | .ok bfp =>
  match bfp.to_name with
  | .error e => .error e
  | .ok base_font =>
  match dict.requireEntry "Font" "Subtype" with
  | .error e => .error e
  | .ok stp =>
  match FontType.from_primitive stp with
  | .error e => .error e
  | .ok subtype =>
  let encRem := dict.removeEntry "Encoding"
  match parseOpt encP encRem.1 with
  | .error e => .error e
  | .ok encoding =>
  let tuRem := encRem.2.removeEntry "ToUnicode"
  match parseOpt streamP tuRem.1 with
  | .error e => .error e
  | .ok to_unicode =>
  let dict2 := tuRem.2
  match (match STANDARD_FONTS.find? (fun e => e.1 == base_font) with
         | some (_, bytes) => Except.ok (FontData.Standard bytes)
         | none =>
           match subtype with
           | .Type0 =>
             match type0P dict2 with
             | .ok t => Except.ok (FontData.Type0 t)
             | .error e => Except.error e
           | .Type1 =>
             match tfontP dict2 with
             | .ok t => Except.ok (FontData.Type1 t)
             | .error e => Except.error e
           | .TrueType =>
             match tfontP dict2 with
             | .ok t => Except.ok (FontData.TrueType t)
             | .error e => Except.error e
           | .CIDFontType0 =>
             match cidP dict2 with
             | .ok c => Except.ok (FontData.CIDFontType0 c)
             | .error e => Except.error e
           | .CIDFontType2 =>
             let cmRem := dict2.removeEntry "CIDToGIDMap"
             match (match cmRem.1 with
                    | some (Primitive.stream d s) =>
                      match cidMapP (Primitive.stream d s) with
                      | .ok m => Except.ok (some m)
                      | .error e => Except.error e
                    | some (Primitive.reference n g) =>
                      match cidMapP (Primitive.reference n g) with
                      | .ok m => Except.ok (some m)
                      | .error e => Except.error e
                    | _ => Except.ok none) with
             | .error e => Except.error e
             | .ok cid_map =>
               match cidP cmRem.2 with
               | .ok c => Except.ok (FontData.CIDFontType2 c cid_map)
               | .error e => Except.error e
           | _ => Except.ok (FontData.Other dict2)) with
  | .error e => .error e
  | .ok data =>
    .ok { subtype := subtype, name := base_font, data := data,
          encoding := encoding, to_unicode := to_unicode, other := dict2 }

/-! ## `examples/text/src/main.rs`: the Unicode CMap scan

`parse_cmap` interleaves `lexer.next()` (raw lexemes) and `parse_with_lexer`
(one primitive) over one token stream.  The lexer and parser live in
`pdf::parser`, outside the provided sources; per the spec (§1, §3) the scan
is specified over a token stream, so a token is modelled as either a bare
word (candidate keyword; it fails to parse as a primitive) or a parsed
primitive, and each read consumes one token. -/

/-- Modelled from the spec: one token of the CMap token stream. -/
inductive Tok where
  | word (w : String)
  | prim (p : Primitive)

/-- Modelled from the spec: `parse_with_lexer` on the next token — a bare
word is not a primitive and fails, a primitive token parses as itself. -/
def parseNext : Tok → Option Primitive
  | .word _ => none
  | .prim p => some p

/-- The map built by `parse_cmap`: code → decoded replacement (kept as the
raw bytes the external UTF-16 decoding receives). -/
abbrev CMap := List (Nat × List Nat)

/-- `HashMap::insert`: replace the binding if the key exists, else add it. -/
def mapInsert (k : Nat) (v : List Nat) (m : CMap) : CMap :=
  if m.any (fun e => e.1 == k) then
    m.map (fun e => if e.1 == k then (k, v) else e)
  else m ++ [(k, v)]

/-- `u16::from_be_bytes` on a two-byte string. -/
def be16 (s : List Nat) : Nat := s.getD 0 0 * 256 + s.getD 1 0

/-- The `for cid in cid_start..=cid_end` loop of the single-string
`beginbfrange` arm of `parse_cmap` (`main.rs`), counting down the number of
codes: decode the current replacement string (`u16dec` stands for the
external `utf16be_to_string`, whose failed `unwrap` aborts), insert it, then
`*unicode_data.last_mut().unwrap() += 1` — an abort on an empty string, and
a wrapping increment of only the last byte. -/
def bfrangeStr (u16dec : List Nat → Option (List Nat)) :
    Nat → Nat → List Nat → CMap → Panicable CMap
  | 0, _, _, map => .ok map
  | n + 1, cid, u, map =>
    match u16dec u with
    | none => .panicked
    | some s =>
      match u.getLast? with
      | none => .panicked
      | some lastB =>
        bfrangeStr u16dec n (cid + 1) (u.dropLast ++ [(lastB + 1) % 256])
          (mapInsert cid s map)

/-- The `(cid_start..=cid_end).zip(array)` loop of the array `beginbfrange`
arm of `parse_cmap` (`main.rs`): each element must be a string
(`as_string().unwrap()` aborts otherwise) and must decode. -/
def bfrangeArr (u16dec : List Nat → Option (List Nat)) :
    Nat → Nat → List Primitive → CMap → Panicable CMap
  | 0, _, _, map => .ok map
  | _ + 1, _, [], map => .ok map
  | n + 1, cid, p :: ps, map =>
    match p with
    | .string s =>
      match u16dec s with
      | none => .panicked
      | some v => bfrangeArr u16dec n (cid + 1) ps (mapInsert cid v map)
    | _ => .panicked

/-- The scanning state of `parse_cmap`: the outer keyword loop, or one of
the two operand-block loops. -/
inductive CMode where
  | scan
  | bfchar
  | bfrange

/-- `parse_cmap` from `main.rs` as a state machine over the token stream.
In `scan` mode, unrecognised tokens are skipped and `endcmap` stops.  In a
block mode the operands are fetched first and then matched: a tuple that is
not of the recognised shape only ends the block (falling back to `scan`),
but a code string whose length is not exactly 2 aborts
(`u16::from_be_bytes(s.try_into().unwrap())`), as do the failure points of
`bfrangeStr`/`bfrangeArr`.  Running out of tokens inside a block makes the
operand parses fail, ending the block and then the outer loop. -/
def cmapRun (u16dec : List Nat → Option (List Nat)) :
    CMode → List Tok → CMap → Panicable CMap
  | .scan, [], map => .ok map
  | .scan, t :: rest, map =>
    match t with
    | .word w =>
      if w = "beginbfchar" then cmapRun u16dec .bfchar rest map
      else if w = "beginbfrange" then cmapRun u16dec .bfrange rest map
      else if w = "endcmap" then .ok map
      else cmapRun u16dec .scan rest map
    | .prim _ => cmapRun u16dec .scan rest map
  | .bfchar, t1 :: t2 :: rest, map =>
    match parseNext t1, parseNext t2 with
    | some (.string cid), some (.string uni) =>
      if cid.length = 2 then
        match u16dec uni with
        | none => .panicked
        | some s => cmapRun u16dec .bfchar rest (mapInsert (be16 cid) s map)
      else .panicked
    | _, _ => cmapRun u16dec .scan rest map
  | .bfchar, _, map => .ok map
  | .bfrange, t1 :: t2 :: t3 :: rest, map =>
    match parseNext t1, parseNext t2, parseNext t3 with
    | some (.string s), some (.string e), some (.string u) =>
      if s.length = 2 then
        if e.length = 2 then
          match bfrangeStr u16dec (be16 e + 1 - be16 s) (be16 s) u map with
          | .panicked => .panicked
          | .ok map1 => cmapRun u16dec .bfrange rest map1
        else .panicked
      else .panicked
    | some (.string s), some (.string e), some (.array arr) =>
      if s.length = 2 then
        if e.length = 2 then
          match bfrangeArr u16dec (be16 e + 1 - be16 s) (be16 s) arr map with
          | .panicked => .panicked
          | .ok map1 => cmapRun u16dec .bfrange rest map1
        else .panicked
      else .panicked
    | _, _, _ => cmapRun u16dec .scan rest map
  | .bfrange, _, map => .ok map

/-- Semantics of `std::str::from_utf8(data).is_ok()`: UTF-8 validity of a
byte sequence per the standard encoding rules (one to four bytes per scalar
value, continuation bytes `0x80..=0xBF`, no overlong forms, no surrogates,
maximum `U+10FFFF`), which is exactly what the standard library validates. -/
def validUtf8 : List Nat → Bool
  | [] => true
  | b0 :: rest =>
    if b0 ≤ 0x7F then validUtf8 rest
    else match rest with
      | b1 :: rest1 =>
        if 0xC2 ≤ b0 ∧ b0 ≤ 0xDF then
          (0x80 ≤ b1 ∧ b1 ≤ 0xBF) && validUtf8 rest1
        else match rest1 with
          | b2 :: rest2 =>
            if b0 = 0xE0 then
              ((0xA0 ≤ b1 ∧ b1 ≤ 0xBF) ∧ (0x80 ≤ b2 ∧ b2 ≤ 0xBF)) && validUtf8 rest2
            else if (0xE1 ≤ b0 ∧ b0 ≤ 0xEC) ∨ b0 = 0xEE ∨ b0 = 0xEF then
              ((0x80 ≤ b1 ∧ b1 ≤ 0xBF) ∧ (0x80 ≤ b2 ∧ b2 ≤ 0xBF)) && validUtf8 rest2
            else if b0 = 0xED then
              ((0x80 ≤ b1 ∧ b1 ≤ 0x9F) ∧ (0x80 ≤ b2 ∧ b2 ≤ 0xBF)) && validUtf8 rest2
            else match rest2 with
              | b3 :: rest3 =>
                if b0 = 0xF0 then
                  ((0x90 ≤ b1 ∧ b1 ≤ 0xBF) ∧ (0x80 ≤ b2 ∧ b2 ≤ 0xBF) ∧
                    (0x80 ≤ b3 ∧ b3 ≤ 0xBF)) && validUtf8 rest3
                else if 0xF1 ≤ b0 ∧ b0 ≤ 0xF3 then
                  ((0x80 ≤ b1 ∧ b1 ≤ 0xBF) ∧ (0x80 ≤ b2 ∧ b2 ≤ 0xBF) ∧
                    (0x80 ≤ b3 ∧ b3 ≤ 0xBF)) && validUtf8 rest3
                else if b0 = 0xF4 then
                  ((0x80 ≤ b1 ∧ b1 ≤ 0x8F) ∧ (0x80 ≤ b2 ∧ b2 ≤ 0xBF) ∧
                    (0x80 ≤ b3 ∧ b3 ≤ 0xBF)) && validUtf8 rest3
                else false
              | _ => false
          | _ => false
      | _ => false

/-- `parse_cmap` from `main.rs`, at the byte level.  Its first statement,
`println!("{}", std::str::from_utf8(data).unwrap())`, aborts on any input
that is not valid UTF-8 before any scanning happens; only then does the scan
run, in keyword mode on an empty map, over the token stream that the
external `Lexer`/`parse_with_lexer` (from `pdf::parser`, outside the
provided sources — passed in as `lex`, modelled from the spec) produce from
the data. -/
def parse_cmap (u16dec : List Nat → Option (List Nat))
    (lex : List Nat → List Tok) (data : List Nat) : Panicable CMap :=
  if validUtf8 data then cmapRun u16dec .scan (lex data) [] else .panicked

/-! ## Auxiliary definitions for the claims -/

/-- The base-85 group value as the specification states it (for comparison
with `word_85`): the 32-bit big-endian word
`(a-0x21)*85^4 + (b-0x21)*85^3 + (c-0x21)*85^2 + (d-0x21)*85 + (e-0x21)`. -/
def word85PerSpec (a b c d e : Nat) : List Nat :=
  let q := (a - 0x21) * 85 ^ 4 + (b - 0x21) * 85 ^ 3 + (c - 0x21) * 85 ^ 2 +
    (d - 0x21) * 85 + (e - 0x21)
  [q / 2 ^ 24 % 256, q / 2 ^ 16 % 256, q / 2 ^ 8 % 256, q % 256]

/-- An array element of a `beginbfrange` replacement array that cannot make
`parse_cmap` abort: a string of exactly two bytes. -/
def benignElem : Primitive → Bool
  | .string s => s.length == 2
  | _ => false

/-- A primitive operand that cannot drive `parse_cmap` into one of its
aborting unwraps: every string is exactly two bytes, and arrays hold only
such strings. -/
def benignPrim : Primitive → Bool
  | .string s => s.length == 2
  | .array a => a.all benignElem
  | _ => true

/-- A token that cannot make `parse_cmap` abort. -/
def benignTok : Tok → Bool
  | .word _ => true
  | .prim p => benignPrim p

/-! ## Claims -/

/-- C1: counter-evidence for the inverse-PNG-filter round trip.  For the
`Sub` predictor with `bpp = 1`, `prev = [0]` and `raw = [1]`, unfiltering
into a zero-initialised output row leaves the first `bpp` bytes untouched
(the `Sub` arm of `unfilter` never writes indices below `bpp`), so the
output is `[0]`; filtering that output returns `[0]`, not the original
`[1]`.  The round trip `filter (unfilter prev raw) = raw` therefore fails. -/
theorem sub_unfilter_filter_roundtrip_fails_at_bpp_prefix :
    unfilter .Sub 1 [0] [1] [0] = .ok [0] ∧
    filter .Sub 1 [0] [0] = .ok [0] ∧
    ([0] : List Nat) ≠ [1] := by
  refine ⟨rfl, rfl, by decide⟩

/-- C2: counter-evidence for the base-85 group decoding.  On the full group
`0x22 0x21 0x21 0x21 0x21` (symbol values 1,0,0,0,0) the source computes
`85*(1+0+0+0) + 0x21 = 118` — it multiplies each of the first four symbols
by a single 85 and adds the fifth byte raw — and so emits `[0,0,0,118]`,
whereas the claimed word `1*85^4 = 52200625` has big-endian bytes
`[3,28,132,177]`. -/
theorem word85_group_value_diverges_from_spec :
    word_85 [0x22, 0x21, 0x21, 0x21, 0x21] = .ok (some (5, [0, 0, 0, 118])) ∧
    word85PerSpec 0x22 0x21 0x21 0x21 0x21 = [3, 28, 132, 177] ∧
    ([0, 0, 0, 118] : List Nat) ≠ [3, 28, 132, 177] := by
  refine ⟨rfl, by decide, by decide⟩

/-- C3: counter-evidence for width-table insertion past the current end.
Parsing the `/W` array `0 [10 20] 5 [30]` performs `set 0 10`, `set 1 20`,
`set 5 30`; the past-the-end branch of `Widths::set` pads with
`cid - first_char - 1` defaults regardless of the current length, so the
width 30 lands at code 6 and code 5 reads back the default 0 instead of the
inserted 30. -/
theorem widths_gap_insert_lands_at_wrong_code :
    (widthsFromEntries (0 : Nat) [.run 0 [10, 20], .run 5 [30]]).get 5 = 0 ∧
    (widthsFromEntries (0 : Nat) [.run 0 [10, 20], .run 5 [30]]).get 6 = 30 ∧
    (0 : Nat) ≠ 30 := by
  refine ⟨rfl, rfl, by decide⟩

/-- C4: counter-evidence for totality of `decode_85`.  On the input `~>`
(an empty payload followed by the terminator — all-complete-groups) the word
loop calls `word_85` on the two remaining bytes and the slice `input[1..5]`
is out of bounds: the decoder aborts instead of returning `Ok([])` or an
error value. -/
theorem decode85_aborts_on_terminator_only_input :
    decode_85 [126, 62] = .panicked := rfl

/-- C5: counter-evidence for totality of the predictor stage.  With
`predictor = 11`, `columns = 1` and a 3-byte inflated buffer (not a multiple
of `columns + 1 = 2`), `rows = 1`, but the loop condition `in_off < inp.len()`
admits a final partial row whose data slice `&inp[in_off..in_off+columns]`
runs past the buffer: the stage aborts instead of returning `rows * columns`
bytes. -/
theorem pred_stage_aborts_on_partial_trailing_row :
    flate_decode (fun _ => .ok [0, 0, 0]) (fun _ => .ok []) []
      { predictor := 11, n_components := 1, bits_per_component := 8,
        columns := 1, early_change := 1 } = .panicked ∧
    pred_stage 1 1 [0, 0, 0] = .panicked := by
  refine ⟨rfl, rfl⟩

/-- C6: counter-evidence for the hex decoder's domain.  `decode_nibble`
accepts `b'a'..=b'h'` and `b'A'..=b'H'`, so the non-hex input `"0g"`
decodes to `Ok([16])` instead of failing; and the odd-length input `"0"` is
silently truncated to `Ok([])` by the pair iterator instead of failing. -/
theorem decode_hex_accepts_gh_and_drops_odd_byte :
    decode_hex [48, 103] = .ok [16] ∧
    decode_hex [48] = .ok [] := ⟨rfl, rfl⟩

/-- C9: invoking `decode` with an `LZWDecode`, `JPXDecode`, `CCITTFaxDecode`
or `Crypt` filter returns the error produced by the local `unimplemented!`
macro of `error.rs` — `PdfError::Other` carrying the "Unimplemented @ …"
message — for every input and every choice of the external decoders; that
error value is distinct from each codec-level malformed-data error
(`HexDecode`, `Ascii85TailError`, `IncorrectPredictorType`), and the result
is never the input passed through as a success. -/
theorem decode_unimplemented_filters_fail_distinctly :
    ∀ (inflZ inflRaw : List Nat → Except String (List Nat))
      (dctF : List Nat → Except PdfError (List Nat))
      (data : List Nat) (p : LZWFlateParams),
      decode inflZ inflRaw dctF data (.LZWDecode p) =
        .ok (.error (.Other unimplementedMsg)) ∧
      decode inflZ inflRaw dctF data .JPXDecode =
        .ok (.error (.Other unimplementedMsg)) ∧
      decode inflZ inflRaw dctF data .CCITTFaxDecode =
        .ok (.error (.Other unimplementedMsg)) ∧
      decode inflZ inflRaw dctF data .Crypt =
        .ok (.error (.Other unimplementedMsg)) ∧
      (∀ pos b0 b1, PdfError.Other unimplementedMsg ≠ .HexDecode pos b0 b1) ∧
      PdfError.Other unimplementedMsg ≠ .Ascii85TailError ∧
      (∀ n, PdfError.Other unimplementedMsg ≠ .IncorrectPredictorType n) ∧
      (∀ out : List Nat,
        (Panicable.ok (Except.error (PdfError.Other unimplementedMsg)) :
          Panicable (Except PdfError (List Nat))) ≠ .ok (.ok out)) := by
  intro inflZ inflRaw dctF data p
  refine ⟨rfl, rfl, rfl, rfl, ?_, ?_, ?_, ?_⟩
  · intro pos b0 b1 h; cases h
  · intro h; cases h
  · intro n h; cases h
  · intro out h; simp at h

/-- C10: `Widths::get` is total by construction, and it returns the
configured default both for every code strictly below `first_char` and for
every code at or beyond `first_char + values.length`. -/
theorem widths_get_defaults_outside_range :
    ∀ {α : Type} (w : Widths α) (cid : Nat),
      (cid < w.first_char → w.get cid = w.default) ∧
      (w.first_char + w.values.length ≤ cid → w.get cid = w.default) := by
  intro α w cid
  constructor
  · intro h
    simp [Widths.get, h]
  · intro h
    have h1 : ¬ cid < w.first_char := by omega
    have h2 : w.values.length ≤ cid - w.first_char := by omega
    have h3 : w.values[cid - w.first_char]? = none := List.getElem?_eq_none h2
    simp [Widths.get, h1, h3]

/-- Witness for C10 at a concrete table: default 5, first code 10, two
stored values; codes 3 (below) and 99 (beyond) both read back 5. -/
theorem widths_get_defaults_outside_range_witness :
    Widths.get { values := [7, 8], default := 5, first_char := 10 } 3 = 5 ∧
    Widths.get { values := [7, 8], default := 5, first_char := 10 } 99 = 5 :=
  ⟨(widths_get_defaults_outside_range
      { values := [7, 8], default := 5, first_char := 10 } 3).1 (by decide),
   (widths_get_defaults_outside_range
      { values := [7, 8], default := 5, first_char := 10 } 99).2 (by decide)⟩

/-- C7: when the declared `/BaseFont` name matches a bundled standard font
(case-sensitive `==`, first match of the source's `filter(..).next()`),
`Font::from_primitive` produces `FontData::Standard` with that entry's
bytes.  The sub-parsers for every other variant — including the
`FontDescriptor`/`FontFile` parsing reached only through them — are
universally quantified and absent from the conclusion, so they are never
invoked, whatever the declared `/Subtype` parsed to. -/
theorem font_standard_name_bypasses_subtype
    {α β γ ε σ : Type}
    (tfontP : PDict → Except PdfError α) (type0P : PDict → Except PdfError β)
    (cidP : PDict → Except PdfError γ) (encP : Primitive → Except PdfError ε)
    (streamP : Primitive → Except PdfError σ)
    (cidMapP : Primitive → Except PdfError (List Nat))
    (d : PDict) (bf nm bytes : String) (stp : Primitive) (st : FontType)
    (oenc : Option ε) (otu : Option σ)
    (hexp : d.expectEntry "Font" "Type" "Font" true = .ok ())
    (hbase : d.requireEntry "Font" "BaseFont" = .ok (.name bf))
    (hsub : d.requireEntry "Font" "Subtype" = .ok stp)
    (hst : FontType.from_primitive stp = .ok st)
    (henc : parseOpt encP (d.removeEntry "Encoding").1 = .ok oenc)
    (htu : parseOpt streamP
      ((d.removeEntry "Encoding").2.removeEntry "ToUnicode").1 = .ok otu)
    (hfind : STANDARD_FONTS.find? (fun e => e.1 == bf) = some (nm, bytes)) :
    Font.from_primitive tfontP type0P cidP encP streamP cidMapP (.dictionary d) =
      .ok { subtype := st, name := bf, data := .Standard bytes,
            encoding := oenc, to_unicode := otu,
            other := ((d.removeEntry "Encoding").2.removeEntry "ToUnicode").2 } := by
  unfold Font.from_primitive
  simp only [Primitive.to_dictionary]
  rw [hexp, hbase]
  simp only [Primitive.to_name, hsub, hst, henc, htu, hfind]

/-- Witness for C7: a dictionary declaring `/BaseFont Helvetica` and
`/Subtype Type1`, with every sub-parser instantiated to a function that only
fails — the construction still succeeds with the bundled Helvetica bytes,
demonstrating that none of the sub-parsers runs. -/
theorem font_standard_name_bypasses_subtype_witness :
    Font.from_primitive
      (fun _ => .error (.Other "never") : PDict → Except PdfError Unit)
      (fun _ => .error (.Other "never") : PDict → Except PdfError Unit)
      (fun _ => .error (.Other "never") : PDict → Except PdfError Unit)
      (fun _ => .error (.Other "never") : Primitive → Except PdfError Unit)
      (fun _ => .error (.Other "never") : Primitive → Except PdfError Unit)
      (fun _ => .error (.Other "never") : Primitive → Except PdfError (List Nat))
      (.dictionary [("Type", .name "Font"), ("BaseFont", .name "Helvetica"),
                    ("Subtype", .name "Type1")]) =
      .ok { subtype := .Type1, name := "Helvetica",
            data := .Standard "MyriadPro-Regular.otf",
            encoding := none, to_unicode := none,
            other := [("Type", .name "Font"), ("BaseFont", .name "Helvetica"),
                      ("Subtype", .name "Type1")] } :=
  font_standard_name_bypasses_subtype _ _ _ _ _ _
    [("Type", .name "Font"), ("BaseFont", .name "Helvetica"),
     ("Subtype", .name "Type1")]
    "Helvetica" "Helvetica" "MyriadPro-Regular.otf" (.name "Type1") .Type1
    none none rfl rfl rfl rfl rfl rfl rfl

/-- C8 counterexample, at the byte level, in two parts.  First, the ASCII
(hence valid-UTF-8) input `beginbfchar <41> <4243>` — a `beginbfchar` block
whose code string is one byte long: the claim says a malformed operand pair
only terminates the block, but
`u16::from_be_bytes(cid_data.as_bytes().try_into().unwrap())` aborts on any
string that is not exactly two bytes, so the whole scan aborts.  Second,
the single byte `0xFF` is not valid UTF-8, so
`std::str::from_utf8(data).unwrap()` aborts before any scanning, whatever
the lexer would have produced. -/
theorem cmap_scan_aborts_on_short_code_string :
    parse_cmap (fun b => some b)
      (fun _ => [.word "beginbfchar", .prim (.string [0x41]),
                 .prim (.string [0x42, 0x43])])
      [98, 101, 103, 105, 110, 98, 102, 99, 104, 97, 114, 32,
       60, 52, 49, 62, 32, 60, 52, 50, 52, 51, 62] = .panicked ∧
    parse_cmap (fun b => some b) (fun _ => []) [0xFF] = .panicked :=
  ⟨rfl, rfl⟩

/-- A benign array element is a two-byte string. -/
theorem benignElem_spec :
    ∀ p : Primitive, benignElem p = true → ∃ s, p = .string s ∧ s.length = 2 := by
  intro p h
  cases p <;> simp_all [benignElem]

/-- The single-string `beginbfrange` loop never aborts on a two-byte
replacement string whose decodings succeed: the string stays two bytes long
across the last-byte increments, so the `last_mut().unwrap()` always finds a
byte. -/
theorem bfrangeStr_total (u16dec : List Nat → Option (List Nat))
    (hdec : ∀ s : List Nat, s.length = 2 → (u16dec s).isSome = true) :
    ∀ (n cid : Nat) (u : List Nat) (map : CMap), u.length = 2 →
      ∃ m, bfrangeStr u16dec n cid u map = .ok m := by
  intro n
  induction n with
  | zero => intro cid u map _; exact ⟨map, rfl⟩
  | succ n ih =>
    intro cid u map hu
    obtain ⟨s, hs⟩ := Option.isSome_iff_exists.mp (hdec u hu)
    have hne : u ≠ [] := by intro h; subst h; simp at hu
    obtain ⟨lastB, hlast⟩ :=
      Option.isSome_iff_exists.mp (List.getLast?_isSome.mpr hne)
    have hu2 : (u.dropLast ++ [(lastB + 1) % 256]).length = 2 := by
      simp [List.length_dropLast, hu]
    obtain ⟨m, hm⟩ :=
      ih (cid + 1) (u.dropLast ++ [(lastB + 1) % 256]) (mapInsert cid s map) hu2
    exact ⟨m, by simp [bfrangeStr, hs, hlast, hm]⟩

/-- The array `beginbfrange` loop never aborts when every element is a
two-byte string whose decoding succeeds. -/
theorem bfrangeArr_total (u16dec : List Nat → Option (List Nat))
    (hdec : ∀ s : List Nat, s.length = 2 → (u16dec s).isSome = true) :
    ∀ (n cid : Nat) (arr : List Primitive) (map : CMap),
      arr.all benignElem = true →
      ∃ m, bfrangeArr u16dec n cid arr map = .ok m := by
  intro n
  induction n with
  | zero => intro cid arr map _; exact ⟨map, rfl⟩
  | succ n ih =>
    intro cid arr map harr
    cases arr with
    | nil => exact ⟨map, rfl⟩
    | cons p ps =>
      simp only [List.all_cons, Bool.and_eq_true] at harr
      obtain ⟨hp, hps⟩ := harr
      obtain ⟨s, rfl, hs2⟩ := benignElem_spec p hp
      obtain ⟨v, hv⟩ := Option.isSome_iff_exists.mp (hdec s hs2)
      obtain ⟨m, hm⟩ := ih (cid + 1) ps (mapInsert cid v map) hps
      exact ⟨m, by simp [bfrangeArr, hv, hm]⟩

/-- The scan state machine never aborts, from any of its states, on a token
stream all of whose string operands are exactly two bytes (arrays holding
only such strings) when the external UTF-16 decoding accepts every two-byte
string: unrecognised tokens are skipped, an operand tuple that does not
match a recognised shape only ends its block (the scan falls back to
keyword mode, as the recursion shows), and the scan returns a map. -/
theorem cmapRun_benign_total
    (u16dec : List Nat → Option (List Nat))
    (hdec : ∀ s : List Nat, s.length = 2 → (u16dec s).isSome = true) :
    ∀ (ts : List Tok) (mode : CMode) (map : CMap),
      ts.all benignTok = true →
      ∃ m, cmapRun u16dec mode ts map = .ok m := by
  suffices H : ∀ (n : Nat) (ts : List Tok) (mode : CMode) (map : CMap),
      ts.length ≤ n → ts.all benignTok = true →
      ∃ m, cmapRun u16dec mode ts map = .ok m by
    intro ts mode map hb
    exact H ts.length ts mode map le_rfl hb
  intro n
  induction n with
  | zero =>
    intro ts mode map hlen _
    have hts : ts = [] := List.length_eq_zero.mp (Nat.le_zero.mp hlen)
    subst hts
    cases mode <;> exact ⟨map, rfl⟩
  | succ n ih =>
    intro ts mode map hlen hb
    cases mode with
    | scan =>
      cases ts with
      | nil => exact ⟨map, rfl⟩
      | cons t rest =>
        simp only [List.all_cons, Bool.and_eq_true] at hb
        obtain ⟨hb1, hbr⟩ := hb
        have hlenr : rest.length ≤ n := by
          simp only [List.length_cons] at hlen; omega
        cases t with
        | word w =>
          simp only [cmapRun]
          split_ifs with h1 h2 h3
          · exact ih rest .bfchar map hlenr hbr
          · exact ih rest .bfrange map hlenr hbr
          · exact ⟨map, rfl⟩
          · exact ih rest .scan map hlenr hbr
        | prim p =>
          simpa only [cmapRun] using ih rest .scan map hlenr hbr
    | bfchar =>
      cases ts with
      | nil => exact ⟨map, rfl⟩
      | cons t1 ts1 =>
        cases ts1 with
        | nil => exact ⟨map, rfl⟩
        | cons t2 rest =>
          simp only [List.all_cons, Bool.and_eq_true] at hb
          obtain ⟨hb1, hb2, hbr⟩ := hb
          have hlenr : rest.length ≤ n := by
            simp only [List.length_cons] at hlen; omega
          cases t1 with
          | word w1 =>
            simpa only [cmapRun, parseNext] using ih rest .scan map hlenr hbr
          | prim p1 =>
            cases p1 <;>
              try (simpa only [cmapRun, parseNext] using ih rest .scan map hlenr hbr)
            rename_i s1
            cases t2 with
            | word w2 =>
              simpa only [cmapRun, parseNext] using ih rest .scan map hlenr hbr
            | prim p2 =>
              cases p2 <;>
                try (simpa only [cmapRun, parseNext] using ih rest .scan map hlenr hbr)
              rename_i s2
              have hs1 : s1.length = 2 := by
                simpa [benignTok, benignPrim] using hb1
              have hs2 : s2.length = 2 := by
                simpa [benignTok, benignPrim] using hb2
              obtain ⟨v, hv⟩ := Option.isSome_iff_exists.mp (hdec s2 hs2)
              obtain ⟨m, hm⟩ := ih rest .bfchar (mapInsert (be16 s1) v map) hlenr hbr
              exact ⟨m, by simp [cmapRun, parseNext, hs1, hv, hm]⟩
    | bfrange =>
      cases ts with
      | nil => exact ⟨map, rfl⟩
      | cons t1 ts1 =>
        cases ts1 with
        | nil => exact ⟨map, rfl⟩
        | cons t2 ts2 =>
          cases ts2 with
          | nil => exact ⟨map, rfl⟩
          | cons t3 rest =>
            simp only [List.all_cons, Bool.and_eq_true] at hb
            obtain ⟨hb1, hb2, hb3, hbr⟩ := hb
            have hlenr : rest.length ≤ n := by
              simp only [List.length_cons] at hlen; omega
            cases t1 with
            | word w1 =>
              simpa only [cmapRun, parseNext] using ih rest .scan map hlenr hbr
            | prim p1 =>
              cases p1 <;>
                try (simpa only [cmapRun, parseNext] using ih rest .scan map hlenr hbr)
              rename_i s1
              cases t2 with
              | word w2 =>
                simpa only [cmapRun, parseNext] using ih rest .scan map hlenr hbr
              | prim p2 =>
                cases p2 <;>
                  try (simpa only [cmapRun, parseNext] using ih rest .scan map hlenr hbr)
                rename_i s2
                have hs1 : s1.length = 2 := by
                  simpa [benignTok, benignPrim] using hb1
                have hs2 : s2.length = 2 := by
                  simpa [benignTok, benignPrim] using hb2
                cases t3 with
                | word w3 =>
                  simpa only [cmapRun, parseNext] using ih rest .scan map hlenr hbr
                | prim p3 =>
                  cases p3 <;>
                    try (simpa only [cmapRun, parseNext] using ih rest .scan map hlenr hbr)
                  case string u =>
                    have hu2 : u.length = 2 := by
                      simpa [benignTok, benignPrim] using hb3
                    obtain ⟨m1, hm1⟩ := bfrangeStr_total u16dec hdec
                      (be16 s2 + 1 - be16 s1) (be16 s1) u map hu2
                    obtain ⟨m, hm⟩ := ih rest .bfrange m1 hlenr hbr
                    exact ⟨m, by simp [cmapRun, parseNext, hs1, hs2, hm1, hm]⟩
                  case array arr =>
                    have harr : arr.all benignElem = true := by
                      simpa [benignTok, benignPrim] using hb3
                    obtain ⟨m1, hm1⟩ := bfrangeArr_total u16dec hdec
                      (be16 s2 + 1 - be16 s1) (be16 s1) arr map harr
                    obtain ⟨m, hm⟩ := ih rest .bfrange m1 hlenr hbr
                    exact ⟨m, by simp [cmapRun, parseNext, hs1, hs2, hm1, hm]⟩

/-- C8 amended: for every input byte sequence, `parse_cmap` is guaranteed
not to fail fatally only when the input is valid UTF-8 (the function's
leading `std::str::from_utf8(data).unwrap()` aborts on anything else,
before any scanning) and the token stream the external lexer/parser derive
from it has every string operand exactly two bytes (array operands holding
only such strings), with the external UTF-16 decoding accepting every
two-byte string.  Under those conditions bytes between recognised keywords
are skipped and an operand tuple that does not match a recognised shape
terminates only its block, scanning continuing until `endcmap`; a code
string that is not exactly two bytes instead aborts the whole scan, per the
counterexample. -/
theorem cmap_scan_benign_total
    (u16dec : List Nat → Option (List Nat))
    (hdec : ∀ s : List Nat, s.length = 2 → (u16dec s).isSome = true) :
    ∀ (data : List Nat) (lex : List Nat → List Tok),
      validUtf8 data = true → (lex data).all benignTok = true →
      ∃ m, parse_cmap u16dec lex data = .ok m := by
  intro data lex hv hb
  obtain ⟨m, hm⟩ := cmapRun_benign_total u16dec hdec (lex data) .scan [] hb
  exact ⟨m, by simp [parse_cmap, hv, hm]⟩

/-- Witness for the amended C8: the ASCII input `ex` (valid UTF-8) with a
lexer producing a `beginbfchar` whose first operand is an integer (the
block ends, eating two tokens, and scanning resumes), then stray two-byte
strings, `endbfchar` and `endcmap`; the scan completes. -/
theorem cmap_scan_benign_total_witness :
    ∃ m, parse_cmap (fun b => some b)
      (fun _ => [.word "beginbfchar", .prim (.integer 7), .word "beginbfchar",
                 .prim (.string [0, 65]), .prim (.string [216, 0]),
                 .word "endbfchar", .word "endcmap"])
      [101, 120] = .ok m :=
  cmap_scan_benign_total (fun b => some b) (fun _ _ => rfl) [101, 120]
    (fun _ => [.word "beginbfchar", .prim (.integer 7), .word "beginbfchar",
               .prim (.string [0, 65]), .prim (.string [216, 0]),
               .word "endbfchar", .word "endcmap"])
    (by decide) (by decide)
